import Mathlib

/-!
Shallow embedding of the `addon-system` repository (Python), covering the
parts needed by the verified claims: the dependency-cache storage
(`addon_system/system/storage.py`), the registry operations
(`addon_system/system/system.py`), the addon load state machine
(`addon_system/addon/addon.py`), the interface unload protocol
(`addon_system/addon/interface.py`) and the metadata validation pipeline
(`addon_system/addon/meta.py`).

Conventions of the embedding:
- machine state that Python keeps in objects (the storage map, `sys.modules`,
  `self._module`, ...) is passed explicitly;
- the injected `BaseLibManager.check_dependencies` capability is a function
  parameter `checker : List String → Bool`;
- `utils.hash_string_tuple` feeds the UTF-8 encoding of every list element
  into one sha256 instance, so the digest is a function of the concatenation
  of the elements; sha256 is modelled as an injective map of its input bytes,
  hence the digest is modelled by the concatenated character list itself;
- Python exceptions become `Except` / explicit error components.
-/

namespace AddonSys

/-- Python exception classes relevant to the claims
(`addon_system/errors.py`).  `DuplicatedAddon` and `AddonImportError`
subclass `AddonInvalid`.  `AddonSystemException` instances raised by
`iter_filesystem_addons` carry the exception they were raised `from`
(their `__cause__`), or `none` when raised bare. -/
inductive PyCause where
  | duplicatedAddon
  | addonInvalid
  | addonMetaInvalid
deriving DecidableEq, Repr

/-- Exception surfaced to the caller. -/
inductive PyExc where
  | runtimeError
  | addonImportError
  | addonInvalid
  | addonMetaInvalid
  | duplicatedAddon
  | addonSystemException (cause : Option PyCause)
deriving DecidableEq, Repr

/-- `utils.hash_string_tuple`: one sha256 updated with each element's bytes
in order; digest equality therefore coincides with equality of the
concatenated contents, which is how the digest is modelled. -/
def hash_string_tuple (t : List String) : List Char :=
  (t.map String.data).flatten

/-- The slice of `AddonMeta` the registry-level claims observe
(`addon_system/addon/meta.py`, fields of the fixed schema). -/
structure AddonMeta where
  id : String
  name : String
  description : String
  authors : List String
  depends : List String
deriving DecidableEq, Repr

/-- `AbstractAddonMeta.depends_hash` — `hash_string_tuple(tuple(self.depends))`. -/
def AddonMeta.depends_hash (m : AddonMeta) : List Char :=
  hash_string_tuple m.depends

/-- `storage.DependencyCheckResult` dataclass. -/
structure DependencyCheckResult where
  satisfied : Bool
  hash : List Char
deriving DecidableEq, Repr

/-- `DependencyCheckResult.is_valid`: `addon.metadata.depends_hash == self.hash`. -/
def DependencyCheckResult.is_valid (r : DependencyCheckResult) (m : AddonMeta) : Bool :=
  m.depends_hash == r.hash

/-- `storage.StoredAddon` dataclass. -/
structure StoredAddon where
  enabled : Bool
  last_dependency_check : DependencyCheckResult
deriving DecidableEq, Repr

/-- The `"addons"` mapping of the storage file, as an association list
keyed by addon id (Python dict: unique keys; first binding wins on lookup). -/
abbrev Storage := List (String × StoredAddon)

/-- `AddonSystemStorage.get_stored_addon` (storage absent / malformed cases
collapse to `none`, as in the source). -/
def get_stored_addon : Storage → String → Option StoredAddon
  | [], _ => none
  | (k, v) :: rest, id_ => if k = id_ then some v else get_stored_addon rest id_

/-- Assignment `self._map["addons"][addon.metadata.id] = ...` on the dict. -/
def set_stored : Storage → String → StoredAddon → Storage
  | [], id_, v => [(id_, v)]
  | (k, w) :: rest, id_, v =>
      if k = id_ then (k, v) :: rest else (k, w) :: set_stored rest id_ v

/-- The injected `BaseLibManager.check_dependencies` capability. -/
abbrev Checker := List String → Bool

/-- `AddonSystemStorage.save_addon(addon, enabled=None, dependency_check_result=None)`.
Returns the new `"addons"` map together with `true` when `self.save()` was
reached (an actual write to the cache file) and `false` when the
"Do not rewrite valid cache record" early return fired.
When no record exists and no check result was supplied, the source calls
`self._system.check_dependencies(addon, False)`, i.e. the raw checker. -/
def save_addon (checker : Checker) (s : Storage) (m : AddonMeta)
    (enabled : Option Bool) (dependency_check_result : Option Bool) :
    Storage × Bool :=
  match get_stored_addon s m.id with
  | some stored_addon =>
    let dcr := dependency_check_result.getD stored_addon.last_dependency_check.satisfied
    if (dcr == stored_addon.last_dependency_check.satisfied
        && (enabled.isNone || enabled == some stored_addon.enabled)
        && stored_addon.last_dependency_check.is_valid m) then
      (s, false)
    else
      (set_stored s m.id ⟨enabled.getD false, ⟨dcr, m.depends_hash⟩⟩, true)
  | none =>
    (set_stored s m.id
      ⟨enabled.getD false,
       ⟨dependency_check_result.getD (checker m.depends), m.depends_hash⟩⟩, true)

/-- Observable outcome of `AddonSystem.check_dependencies`. -/
structure CheckOutcome where
  result : Bool
  storage : Storage
  checker_called : Bool
deriving DecidableEq, Repr

/-- `AddonSystem.check_dependencies(addon, use_cache=True, force_check=False)`. -/
def check_dependencies (checker : Checker) (s : Storage) (m : AddonMeta)
    (use_cache : Bool) (force_check : Bool) : CheckOutcome :=
  if use_cache || force_check then
    match get_stored_addon s m.id with
    | some stored_addon =>
      if !force_check && stored_addon.last_dependency_check.is_valid m then
        ⟨stored_addon.last_dependency_check.satisfied, s, false⟩
      else
        let r := checker m.depends
        ⟨r, (save_addon checker s m none (some r)).1, true⟩
    | none =>
      let r := checker m.depends
      ⟨r, (save_addon checker s m none (some r)).1, true⟩
  else
    ⟨checker m.depends, s, true⟩

/-- `AddonSystem.set_addon_enabled`: `self._storage.save_addon(addon, enabled)`.
Second component: whether a cache-file write happened. -/
def set_addon_enabled (checker : Checker) (s : Storage) (m : AddonMeta)
    (enabled : Bool) : Storage × Bool :=
  save_addon checker s m (some enabled) none

/-- `AddonSystem.get_addon_enabled`:
`self._storage.get_stored_addon(addon.metadata.id).enabled`
(`none` models the `AttributeError` on a missing record). -/
def get_addon_enabled (s : Storage) (m : AddonMeta) : Option Bool :=
  (get_stored_addon s m.id).map StoredAddon.enabled

/-- `AddonSystem.enable_addon`: `self.set_addon_enabled(addon, True)`. -/
def enable_addon (checker : Checker) (s : Storage) (m : AddonMeta) : Storage × Bool :=
  set_addon_enabled checker s m true

/-- `AddonSystem.disable_addon`: the body executes
`self.set_addon_enabled(addon, True)` (source line 156). -/
def disable_addon (checker : Checker) (s : Storage) (m : AddonMeta) : Storage × Bool :=
  set_addon_enabled checker s m true

/-- `AddonSystem.satisfy_dependencies`: installs, then
`self._storage.save_addon(addon, dependency_check_result=True)`.
Only the storage effect is modelled (the installed list is the
installer capability's business). -/
def satisfy_dependencies (checker : Checker) (s : Storage) (m : AddonMeta) :
    Storage × Bool :=
  save_addon checker s m none (some true)

/-! ### Discovery (`AddonSystem.iter_filesystem_addons`) -/

/-- One entry of `self._root.iterdir()`, as discovery classifies it:
the storage file itself (skipped), a non-directory (bare
`AddonSystemException`), a directory for which `Addon(path)` raises
`AddonInvalid` (`meta_invalid = false`) or `AddonMetaInvalid`
(`meta_invalid = true`), or a valid addon directory with its metadata. -/
inductive Entry where
  | storageFile
  | nonDir (name : String)
  | invalid (meta_invalid : Bool)
  | addonDir (m : AddonMeta)
deriving DecidableEq, Repr

/-- `AddonSystem.iter_filesystem_addons`, fully consumed.  Returns the ids of
the addons the generator yielded (in order), the final storage map, and the
exception that terminated iteration, if any.  `DuplicatedAddon` and the
per-addon validation errors are subclasses of `AddonInvalid` /
`AddonMetaInvalid`, so the `except` clause catches them and re-raises
`AddonSystemException(...) from e`; a non-directory entry raises a bare
`AddonSystemException` outside the `try`. -/
def iter_filesystem_addons (checker : Checker) :
    List Entry → Storage → List String → List String × Storage × Option PyExc
  | [], s, ids => (ids, s, none)
  | .storageFile :: rest, s, ids => iter_filesystem_addons checker rest s ids
  | .nonDir _ :: _, s, ids => (ids, s, some (.addonSystemException none))
  | .invalid mi :: _, s, ids =>
      (ids, s,
       some (.addonSystemException
         (some (if mi then .addonMetaInvalid else .addonInvalid))))
  | .addonDir m :: rest, s, ids =>
      if m.id ∈ ids then
        (ids, s, some (.addonSystemException (some .duplicatedAddon)))
      else
        iter_filesystem_addons checker rest
          (save_addon checker s m none none).1 (ids ++ [m.id])

/-! ### `Addon.module` (load state machine) -/

deriving instance DecidableEq for Except

/-- Observable outcome of one `Addon.module` call: the returned value or
exception, the `self._module` attribute afterwards, and whether
`self.check_dependencies` was invoked. -/
structure ModuleOutcome where
  result : Except PyExc String
  module_attr : Option String
  deps_checked : Bool
deriving DecidableEq, Repr

/-- `Addon.module(lib_manager, reload=False)`.  `deps_ok` is the verdict
`self.check_dependencies(lib_manager)` would report; `imported` abstracts
the module object `self._import(reload=reload)` resolves (the namespace
injection branch copies attributes onto the same object and is not
observable here).  `module_attr` is the `self._module` slot. -/
def Addon.module (deps_ok : Bool) (imported : String) (reload : Bool)
    (module_attr : Option String) : ModuleOutcome :=
  match module_attr, reload with
  | some mod, false => ⟨.ok mod, some mod, false⟩
  | _, _ =>
    if !deps_ok then ⟨.error .addonImportError, module_attr, true⟩
    else ⟨.ok imported, some imported, true⟩

/-! ### Interface unload protocol (`addon_system/addon/interface.py`) -/

/-- `unload_module`: delete every `sys.modules` key that starts with the
module's name. -/
def unload_module (name : String) (sys_modules : List String) : List String :=
  sys_modules.filter fun n => !(name.isPrefixOf n)

/-- Number of owning addons recorded in the `_modules` ledger for a module
(the source keeps the owner list itself; only its length is observed). -/
def ledger_owners : List (String × Nat) → String → Nat
  | [], _ => 0
  | (k, n) :: rest, mod => if k = mod then n else ledger_owners rest mod

/-- `del _modules[module]`. -/
def ledger_erase (l : List (String × Nat)) (mod : String) : List (String × Nat) :=
  l.filter fun p => p.1 ≠ mod

/-- `addons.remove(self._addon)` on the owner list: one fewer owner. -/
def ledger_dec : List (String × Nat) → String → List (String × Nat)
  | [], _ => []
  | (k, n) :: rest, mod =>
      if k = mod then (k, n - 1) :: rest else (k, n) :: ledger_dec rest mod

/-- The used-modules loop at the end of `ModuleInterface.unload`: for each
module registered by `load`, drop it from the ledger and purge it from
`sys.modules` when this addon was its only owner, otherwise just remove
this addon from its owner set. -/
def cleanup_used :
    List String → List (String × Nat) → List String →
      List (String × Nat) × List String
  | [], led, sysm => (led, sysm)
  | u :: rest, led, sysm =>
      if ledger_owners led u < 2 then
        cleanup_used rest (ledger_erase led u) (unload_module u sysm)
      else
        cleanup_used rest (ledger_dec led u) sysm

/-- The state `ModuleInterface.unload` reads and mutates:
`self._module` (name of the loaded module), `self._addon._module`,
whether the addons-root module still has an attribute for this addon,
`sys.modules` (as the list of loaded names), whether the module defines an
`on_unload` function, `self._used_modules`, and the `_modules` ledger. -/
structure InterfaceState where
  iface_module : Option String
  addon_module : Option String
  parent_attr : Bool
  sys_modules : List String
  has_on_unload : Bool
  used_modules : List String
  ledger : List (String × Nat)
deriving DecidableEq, Repr

/-- Successful unload: the state afterwards and whether the `on_unload`
hook was invoked. -/
structure UnloadDone where
  state : InterfaceState
  called_on_unload : Bool
deriving DecidableEq, Repr

/-- `ModuleInterface.unload`.  `ref_count` is the value
`sys.getrefcount(self._module) - 1` the source computes.  A missing module
(`_module_or_raise`) and a refusal both surface as `RuntimeError`; the
refusal happens before any mutation. -/
def ModuleInterface.unload (ref_count : Nat) (st : InterfaceState) :
    Except PyExc UnloadDone :=
  match st.iface_module with
  | none => .error .runtimeError
  | some name =>
    if ref_count > 4 then .error .runtimeError
    else
      let parent_attr := if ref_count = 4 then false else st.parent_attr
      let sysm := unload_module name st.sys_modules
      let (led, sysm2) := cleanup_used st.used_modules st.ledger sysm
      .ok ⟨⟨none, none, parent_attr, sysm2, st.has_on_unload, [], led⟩,
           st.has_on_unload⟩

/-! ### Metadata validation (`addon_system/addon/meta.py`) -/

/-- Parsed JSON value, as `json.load` produces it.  JSON `null` is Python
`None`; objects are Python dicts (unique keys, insertion-ordered). -/
inductive Json where
  | null
  | bool (b : Bool)
  | num (n : Int)
  | str (s : String)
  | arr (xs : List Json)
  | obj (fields : List (String × Json))
deriving BEq, Repr

/-- Assoc-list lookup on an object's fields (Python dict access). -/
def lookup_field : List (String × Json) → String → Option Json
  | [], _ => none
  | (k, v) :: rest, f => if k = f then some v else lookup_field rest f

/-- Python `field in content`: key present (a JSON `null` value counts). -/
def has_field (fields : List (String × Json)) (f : String) : Bool :=
  (lookup_field fields f).isSome

/-- Python `content.get(field_name)`: `None` both when the key is absent and
when its value is JSON `null`. -/
def get_field (fields : List (String × Json)) (f : String) : Option Json :=
  match lookup_field fields f with
  | some .null => none
  | v => v

/-- `isinstance(value, str)`. -/
def Json.is_str : Json → Bool
  | .str _ => true
  | _ => false

/-- `AbstractAddonMeta._required_fields(["id", "module", "name", "authors"], content)`
succeeds (it raises `AddonMetaInvalid` at the first missing field). -/
def required_fields_ok (fields : List (String × Json)) : Bool :=
  ["id", "module", "name", "authors"].all (has_field fields)

/-- The `field_types` table of `meta.py` restricted to string-typed fields. -/
def string_fields : List String := ["id", "module", "name", "description", "version"]

/-- The `field_types` entries mapped to `list` (elements must be strings). -/
def list_fields : List String := ["depends", "authors"]

/-- `AbstractAddonMeta._fields_types(content)` succeeds.  The source skips a
field whenever `content.get(field_name)` is `None`, i.e. when the field is
absent *or* its value is JSON `null`. -/
def fields_types_ok (fields : List (String × Json)) : Bool :=
  (string_fields.all fun f =>
    match get_field fields f with
    | none => true
    | some v => v.is_str) &&
  (list_fields.all fun f =>
    match get_field fields f with
    | none => true
    | some (Json.arr xs) => xs.all Json.is_str
    | some _ => false)

/-- `AbstractAddonMeta._validate_content`: required fields, then types; any
failure raises `AddonMetaInvalid`. -/
def validate_content (fields : List (String × Json)) : Except PyExc Unit :=
  if !required_fields_ok fields then .error .addonMetaInvalid
  else if !fields_types_ok fields then .error .addonMetaInvalid
  else .ok ()

/-- The `DEFAULTS` table of `meta.py`, in source order. -/
def DEFAULTS : List (String × Json) :=
  [("version", .str "0.0.1"), ("description", .str ""), ("depends", .arr [])]

/-- Loop body of `AbstractAddonMeta._install_defaults`: `if key not in
content: content[key] = value` (a `null` value counts as present; dict
assignment of a fresh key appends it at the end), recording that a default
was installed. -/
def defaults_step (acc : List (String × Json) × Bool) (kv : String × Json) :
    List (String × Json) × Bool :=
  if has_field acc.1 kv.1 then acc else (acc.1 ++ [kv], true)

/-- `AbstractAddonMeta._install_defaults`: add each missing default key, in
order, to the end of the dict; the flag reports whether anything was added. -/
def install_defaults (fields : List (String × Json)) :
    List (String × Json) × Bool :=
  DEFAULTS.foldl defaults_step (fields, false)

/-- `AddonMeta.read` on the parsed file content: reject non-objects, validate,
install defaults, store the result as `self._data` (the returned tree).
The rewrite-on-defaults `self.save()` call does not change `self._data`. -/
def meta_read (j : Json) : Except PyExc (List (String × Json)) :=
  match j with
  | .obj fields =>
    match validate_content fields with
    | .error e => .error e
    | .ok _ => .ok (install_defaults fields).1
  | _ => .error .addonMetaInvalid

/-- `AddonMeta.save`: `json.dump(self._data, f)`; re-parsing the written file
recovers the same tree, so save is modelled as embedding the data tree back
into a `Json` value. -/
def meta_save (data : List (String × Json)) : Json :=
  Json.obj data

/-- Whether a read attempt succeeded (no exception escaped). -/
def read_ok : Except PyExc (List (String × Json)) → Bool
  | .ok _ => true
  | .error _ => false

/-- The full read pipeline including the checks `AbstractAddonMeta.__init__`
performs before `read()`: the file must exist and `AddonMeta.validate_path`
requires the exact filename `addon.json`. -/
def meta_read_file (file_present : Bool) (filename : String) (j : Json) :
    Except PyExc (List (String × Json)) :=
  if !file_present then .error .addonMetaInvalid
  else if filename ≠ "addon.json" then .error .addonMetaInvalid
  else meta_read j

/-! ### `AddonSystem.query_addons` -/

/-- Python `s.lower()`: per-character lowercasing. -/
def str_lower (s : String) : String := ⟨s.data.map Char.toLower⟩

/-- Contiguous containment of `sub` in a character list. -/
def list_has_infix (sub : List Char) : List Char → Bool
  | [] => sub.isEmpty
  | c :: rest => sub.isPrefixOf (c :: rest) || list_has_infix sub rest

/-- Python `sub in parent` on strings (substring containment). -/
def str_contains_sub (parent sub : String) : Bool :=
  list_has_infix sub.data parent.data

/-- The per-addon condition of `AddonSystem.query_addons` deciding whether
the addon is yielded: the `string_match` expression (its two
case-sensitivity variants exactly as in the source) or the enabled-status
comparison against the stored record. -/
def addon_matches (author name description : Option String)
    (enabled : Option Bool) (case_insensitivity : Bool)
    (m : AddonMeta) (stored_enabled : Bool) : Bool :=
  let string_match :=
    if !case_insensitivity then
      (match author with
       | some a => m.authors.contains a
       | none => false)
      || (match name with
          | some n => str_contains_sub m.name n
          | none => false)
      || (match description with
          | some d => str_contains_sub m.description d
          | none => false)
    else
      (match author with
       | some a => m.authors.any fun x => str_lower x == a
       | none => false)
      || (match name with
          | some n => str_contains_sub (str_lower m.name) (str_lower n)
          | none => false)
      || (match description with
          | some d => str_contains_sub (str_lower m.description) (str_lower d)
          | none => false)
  string_match
    || (match enabled with
        | some e => e == stored_enabled
        | none => false)

/-- `AddonSystem.query_addons`, fully consumed, over the discovered addons
paired with their stored `enabled` flags (discovery has already written a
record for each yielded addon). -/
def query_addons (author name description : Option String)
    (enabled : Option Bool) (case_insensitivity : Bool)
    (addons : List (AddonMeta × Bool)) : List AddonMeta :=
  (addons.filter fun p =>
    addon_matches author name description enabled case_insensitivity p.1 p.2).map
    Prod.fst

/-! ### Spec-side definitions (refinement counterparts)

These two definitions are written from the words of the (amended) spec
claims, to be compared against the source-side functions above. -/

/-- Spec side of the C8 refinement: a present field whose value is not JSON
`null` and has the wrong type (string fields must be strings). -/
def spec_str_field_ok (fields : List (String × Json)) (f : String) : Bool :=
  match lookup_field fields f with
  | none => true
  | some .null => true
  | some (.str _) => true
  | some _ => false

/-- Spec side of the C8 refinement: `depends` / `authors` must be sequences
of strings when present and non-`null`. -/
def spec_strlist_field_ok (fields : List (String × Json)) (f : String) : Bool :=
  match lookup_field fields f with
  | none => true
  | some .null => true
  | some (.arr xs) => xs.all Json.is_str
  | some _ => false

/-- Spec side of the C8 refinement, from the amended claim's words:
`read()` succeeds exactly when the file is present under the exact expected
filename, its content is a JSON object, the required fields
`{id, module, name, authors}` are present (a `null` value counts as
present), and every present non-`null` schema field is well-typed. -/
def spec_meta_accepts (file_present : Bool) (filename : String) (j : Json) :
    Bool :=
  file_present && (filename == "addon.json") &&
  match j with
  | .obj fields =>
      has_field fields "id" && has_field fields "module" &&
      has_field fields "name" && has_field fields "authors" &&
      spec_str_field_ok fields "id" && spec_str_field_ok fields "module" &&
      spec_str_field_ok fields "name" &&
      spec_str_field_ok fields "description" &&
      spec_str_field_ok fields "version" &&
      spec_strlist_field_ok fields "depends" &&
      spec_strlist_field_ok fields "authors"
  | _ => false

/-- Spec side of the C9 refinement, from the amended claim's words: an addon
is yielded iff at least one provided criterion matches (OR across criteria):
author equal to an element of the authors list (when `case_insensitivity`,
the lowercased addon author equals the query string as given); name /
description substring of the addon's field (case-folded on both sides when
`case_insensitivity`); or the requested enabled status equal to the stored
flag. -/
def spec_matches (author name description : Option String)
    (enabled : Option Bool) (case_insensitivity : Bool)
    (m : AddonMeta) (stored_enabled : Bool) : Bool :=
  (match author with
   | some a =>
       if case_insensitivity then m.authors.any fun x => str_lower x == a
       else m.authors.contains a
   | none => false)
  || (match name with
      | some n =>
          if case_insensitivity then
            str_contains_sub (str_lower m.name) (str_lower n)
          else str_contains_sub m.name n
      | none => false)
  || (match description with
      | some d =>
          if case_insensitivity then
            str_contains_sub (str_lower m.description) (str_lower d)
          else str_contains_sub m.description d
      | none => false)
  || (match enabled with
      | some e => e == stored_enabled
      | none => false)

/-! ### Concrete fixtures used by counterexamples and witnesses -/

/-- First addon of the duplicated-id root (C1). -/
def c1_meta1 : AddonMeta := ⟨"alpha", "AddonOne", "", ["ann"], []⟩

/-- Second addon of the duplicated-id root (C1): same declared id. -/
def c1_meta2 : AddonMeta := ⟨"alpha", "AddonTwo", "", ["bob"], []⟩

/-- C2 fixture: current dependency list `["a", "b"]`. -/
def c2_meta : AddonMeta := ⟨"x", "X", "", [], ["a", "b"]⟩

/-- C2 fixture: cache entry written when the dependency list was `["ab"]`
(digest of the concatenation `"ab"`), with verdict `satisfied = true`. -/
def c2_storage : Storage := [("x", ⟨true, ⟨true, ['a', 'b']⟩⟩)]

/-- C4/C5 fixture: addon with no dependencies (digest `[]`). -/
def c4_meta : AddonMeta := ⟨"x", "X", "", [], []⟩

/-- C4 fixture: enabled addon whose cache entry's hash `['z']` is stale. -/
def c4_storage : Storage := [("x", ⟨true, ⟨true, ['z']⟩⟩)]

/-- C5 fixture: entry already matching `enabled = true` with a valid hash. -/
def c5_storage : Storage := [("x", ⟨true, ⟨false, []⟩⟩)]

/-- C6 fixture: loaded interface over module `"pkg"`, with one used helper
module owned only by this addon. -/
def c6_state : InterfaceState :=
  ⟨some "pkg", some "pkg", true, ["pkg", "pkg.sub", "other"], true,
   ["helper"], [("helper", 1)]⟩

/-- C8 fixture: metadata object whose required field `id` is JSON `null`. -/
def c8_fields : List (String × Json) :=
  [("id", .null), ("module", .str "m"), ("name", .str "n"),
   ("authors", .arr [])]

/-- C9 fixture: addon authored by `"A"` (an uppercase name). -/
def c9_meta : AddonMeta := ⟨"q", "Q", "", ["A"], []⟩

/-- C10 fixture: minimal valid metadata content. -/
def c10_fields : List (String × Json) :=
  [("id", .str "i"), ("module", .str "mod"), ("name", .str "n"),
   ("authors", .arr [.str "ann"])]

/-! ## Theorems -/

/-- Helper: looking up the id just stored returns the stored record. -/
theorem get_set_stored (s : Storage) (id_ : String) (v : StoredAddon) :
    get_stored_addon (set_stored s id_ v) id_ = some v := by
  induction s with
  | nil => simp [set_stored, get_stored_addon]
  | cons hd tl ih =>
    obtain ⟨k, w⟩ := hd
    by_cases hk : k = id_
    · simp [set_stored, get_stored_addon, hk]
    · simp [set_stored, get_stored_addon, hk, ih]

/-- **C3**: for every addon owned by a registry, `disable_addon` followed by
`get_addon_enabled` returns `true`: `disable_addon` performs the identical
state change as `enable_addon` (its body passes `enabled = True` to
`set_addon_enabled`). -/
theorem c3_theorem (checker : Checker) (s : Storage) (m : AddonMeta) :
    get_addon_enabled (disable_addon checker s m).1 m = some true
    ∧ disable_addon checker s m = enable_addon checker s m := by
  refine ⟨?_, rfl⟩
  simp only [disable_addon, set_addon_enabled, save_addon, get_addon_enabled]
  cases h : get_stored_addon s m.id with
  | none => simp [get_set_stored]
  | some st =>
    simp only [Option.getD_some, Option.getD_none]
    split
    · next hcond =>
        simp only [Option.isNone_some, Bool.false_or, Option.some_beq_some,
          Bool.and_assoc, Bool.and_eq_true, beq_iff_eq] at hcond
        simp [h, ← hcond.2.1]
    · simp [get_set_stored]

/-- **C4**: whenever `save_addon` performs an actual write for an addon that
already has a stored entry and no `enabled` value is supplied to the call,
the entry's `enabled` flag is written as `false`, discarding any previously
stored `true`; in particular a cache-invalidating `check_dependencies` call
(stale hash) leaves a previously enabled addon disabled. -/
theorem c4_theorem :
    (∀ (checker : Checker) (s : Storage) (m : AddonMeta) (st : StoredAddon)
        (d : Option Bool),
      get_stored_addon s m.id = some st →
      (save_addon checker s m none d).2 = true →
      get_addon_enabled (save_addon checker s m none d).1 m = some false)
    ∧ (∀ (checker : Checker) (s : Storage) (m : AddonMeta) (st : StoredAddon),
      get_stored_addon s m.id = some st →
      st.enabled = true →
      st.last_dependency_check.is_valid m = false →
      get_addon_enabled (check_dependencies checker s m true false).storage m
        = some false) := by
  constructor
  · intro checker s m st d h hw
    simp only [save_addon, h] at hw ⊢
    split at hw
    · simp at hw
    · next hcond =>
        rw [if_neg hcond]
        simp [get_addon_enabled, get_set_stored]
  · intro checker s m st h _ hv
    simp [check_dependencies, h, hv, save_addon, get_addon_enabled,
      get_set_stored]

/-- **C5**: if the stored entry's `satisfied` and `enabled` already equal
the requested values and its hash matches the addon's current dependency
digest, `save_addon` performs no write; consequently a repeated identical
`set_addon_enabled` call performs no cache write. -/
theorem c5_theorem :
    (∀ (checker : Checker) (s : Storage) (m : AddonMeta) (st : StoredAddon)
        (e : Bool) (d : Option Bool),
      get_stored_addon s m.id = some st →
      e = st.enabled →
      d.getD st.last_dependency_check.satisfied
        = st.last_dependency_check.satisfied →
      st.last_dependency_check.is_valid m = true →
      save_addon checker s m (some e) d = (s, false))
    ∧ (∀ (checker : Checker) (s : Storage) (m : AddonMeta) (e : Bool),
      (set_addon_enabled checker (set_addon_enabled checker s m e).1 m e).2
        = false) := by
  have key : ∀ (checker : Checker) (s : Storage) (m : AddonMeta)
      (st : StoredAddon) (e : Bool) (d : Option Bool),
      get_stored_addon s m.id = some st →
      e = st.enabled →
      d.getD st.last_dependency_check.satisfied
        = st.last_dependency_check.satisfied →
      st.last_dependency_check.is_valid m = true →
      save_addon checker s m (some e) d = (s, false) := by
    intro checker s m st e d h he hd hv
    simp [save_addon, h, hd, he, hv]
  refine ⟨key, ?_⟩
  have after : ∀ (checker : Checker) (s : Storage) (m : AddonMeta) (e : Bool),
      ∃ st', get_stored_addon (set_addon_enabled checker s m e).1 m.id
          = some st'
        ∧ st'.enabled = e
        ∧ st'.last_dependency_check.is_valid m = true := by
    intro checker s m e
    cases h : get_stored_addon s m.id with
    | none =>
      simp only [set_addon_enabled, save_addon, h]
      refine ⟨⟨e, ⟨checker m.depends, m.depends_hash⟩⟩, ?_, rfl, ?_⟩
      · simpa using get_set_stored s m.id _
      · simp [DependencyCheckResult.is_valid]
    | some st =>
      simp only [set_addon_enabled, save_addon, h]
      split
      · next hcond =>
          refine ⟨st, h, ?_, ?_⟩
          · simp only [Option.isNone_some, Bool.false_or, Bool.and_assoc,
              Bool.and_eq_true, beq_iff_eq] at hcond
            exact (Option.some.inj hcond.2.1).symm
          · simp only [Bool.and_assoc, Bool.and_eq_true] at hcond
            exact hcond.2.2
      · refine ⟨⟨e, ⟨st.last_dependency_check.satisfied, m.depends_hash⟩⟩,
          ?_, rfl, ?_⟩
        · simpa using get_set_stored s m.id _
        · simp [DependencyCheckResult.is_valid]
  intro checker s m e
  obtain ⟨st', hget, hen, hval⟩ := after checker s m e
  have := key checker (set_addon_enabled checker s m e).1 m st' e none hget
    hen.symm rfl hval
  simp [set_addon_enabled] at this ⊢
  rw [this]

/-- **C2** (amended): with `use_cache = true` and `force_check = false`,
`check_dependencies` returns the stored verdict without invoking the
checker exactly when the stored entry's hash equals the digest of the
current dependency list; when no entry exists or the hash differs, it
invokes the checker, persists the new verdict keyed by the current digest
(with `enabled` reset to `false`), and returns the checker's result.  The
digest is a function of the concatenation of the list's elements, so an
element change that preserves the concatenation does not invalidate the
cache (see the counterexample). -/
theorem c2_theorem :
    (∀ (checker : Checker) (s : Storage) (m : AddonMeta) (st : StoredAddon),
      get_stored_addon s m.id = some st →
      st.last_dependency_check.hash = m.depends_hash →
      check_dependencies checker s m true false
        = ⟨st.last_dependency_check.satisfied, s, false⟩)
    ∧ (∀ (checker : Checker) (s : Storage) (m : AddonMeta),
      get_stored_addon s m.id = none →
      check_dependencies checker s m true false
        = ⟨checker m.depends,
           set_stored s m.id ⟨false, ⟨checker m.depends, m.depends_hash⟩⟩,
           true⟩)
    ∧ (∀ (checker : Checker) (s : Storage) (m : AddonMeta) (st : StoredAddon),
      get_stored_addon s m.id = some st →
      st.last_dependency_check.hash ≠ m.depends_hash →
      check_dependencies checker s m true false
        = ⟨checker m.depends,
           set_stored s m.id ⟨false, ⟨checker m.depends, m.depends_hash⟩⟩,
           true⟩) := by
  refine ⟨?_, ?_, ?_⟩
  · intro checker s m st h hv
    simp [check_dependencies, h, DependencyCheckResult.is_valid, hv]
  · intro checker s m h
    simp [check_dependencies, h, save_addon]
  · intro checker s m st h hv
    have hv' : st.last_dependency_check.is_valid m = false := by
      simp [DependencyCheckResult.is_valid]
      exact fun hh => hv hh.symm
    simp [check_dependencies, h, hv', save_addon]

/-- **C2** counterexample to the claim as stated: the dependency list
changes from `["ab"]` (for which the cache entry was written) to
`["a", "b"]`, yet the digest — computed from the concatenation of the
elements — is unchanged, so `check_dependencies(use_cache=true)` returns
the stale cached verdict `true` and never calls the checker (which would
report `false`). -/
theorem c2_counterexample :
    c2_meta.depends = ["a", "b"]
    ∧ hash_string_tuple ["ab"] = c2_meta.depends_hash
    ∧ (["a", "b"] : List String) ≠ ["ab"]
    ∧ check_dependencies (fun _ => false) c2_storage c2_meta true false
        = ⟨true, c2_storage, false⟩ := by
  refine ⟨rfl, rfl, by decide, ?_⟩
  rfl

/-- **C2** witness: the cached-hit branch of `c2_theorem` evaluated at the
concrete fixture. -/
theorem c2_witness :
    check_dependencies (fun _ => false) c2_storage c2_meta true false
      = ⟨true, c2_storage, false⟩ :=
  c2_theorem.1 (fun _ => false) c2_storage c2_meta ⟨true, ⟨true, ['a', 'b']⟩⟩
    rfl rfl

/-- **C4** witness: an enabled addon (`c4_storage`) with a stale hash is
disabled by the cache-invalidating dependency check, and the raw
`save_addon` statement evaluated at the same fixture. -/
theorem c4_witness :
    get_addon_enabled
        (check_dependencies (fun _ => true) c4_storage c4_meta true false).storage
        c4_meta = some false
    ∧ get_addon_enabled
        (save_addon (fun _ => true) c4_storage c4_meta none (some true)).1
        c4_meta = some false := by
  constructor
  · exact c4_theorem.2 (fun _ => true) c4_storage c4_meta ⟨true, ⟨true, ['z']⟩⟩
      rfl rfl rfl
  · exact c4_theorem.1 (fun _ => true) c4_storage c4_meta ⟨true, ⟨true, ['z']⟩⟩
      (some true) rfl rfl

/-- **C5** witness: the skip-write branch of `c5_theorem` evaluated at a
concrete matching entry. -/
theorem c5_witness :
    save_addon (fun _ => true) c5_storage c4_meta (some true) none
      = (c5_storage, false) :=
  c5_theorem.1 (fun _ => true) c5_storage c4_meta ⟨true, ⟨false, []⟩⟩ true none
    rfl rfl rfl rfl

/-- **C1** (amended): discovery over a root with two addon directories
declaring the same id yields the first addon, then terminates with an
`AddonSystemException` whose cause is `DuplicatedAddon` (the
`DuplicatedAddon` raised inside the loop is a subclass of `AddonInvalid`,
so the `except` clause wraps it). -/
theorem c1_theorem (checker : Checker) (s : Storage) (m1 m2 : AddonMeta)
    (h : m1.id = m2.id) :
    iter_filesystem_addons checker [.addonDir m1, .addonDir m2] s []
      = ([m1.id], (save_addon checker s m1 none none).1,
         some (.addonSystemException (some .duplicatedAddon))) := by
  simp [iter_filesystem_addons, h]

/-- **C1** counterexample to the claim as stated: on a two-directory root
with duplicated id `"alpha"`, fully consuming `iter_filesystem_addons`
yields one addon (not none) and raises `AddonSystemException` wrapping
`DuplicatedAddon` (not `DuplicatedAddon` itself). -/
theorem c1_counterexample :
    iter_filesystem_addons (fun _ => true)
        [.addonDir c1_meta1, .addonDir c1_meta2] [] []
      = (["alpha"], [("alpha", ⟨false, ⟨true, []⟩⟩)],
         some (.addonSystemException (some .duplicatedAddon)))
    ∧ (["alpha"] : List String) ≠ []
    ∧ some (PyExc.addonSystemException (some .duplicatedAddon))
        ≠ some PyExc.duplicatedAddon :=
  ⟨rfl, by decide, by decide⟩

/-- **C1** witness: `c1_theorem` evaluated at the concrete fixture root. -/
theorem c1_witness :
    iter_filesystem_addons (fun _ => true)
        [.addonDir c1_meta1, .addonDir c1_meta2] [] []
      = (["alpha"], (save_addon (fun _ => true) [] c1_meta1 none none).1,
         some (.addonSystemException (some .duplicatedAddon))) :=
  c1_theorem (fun _ => true) [] c1_meta1 c1_meta2 rfl

/-- **C7**: `Addon.module` with `reload = false` returns the existing handle
unchanged without re-checking dependencies when one is loaded; when none is
loaded and the dependency check reports unsatisfied, it raises
`AddonImportError` and the stored handle remains absent. -/
theorem c7_theorem :
    (∀ (deps_ok : Bool) (imported mod : String),
      Addon.module deps_ok imported false (some mod)
        = ⟨.ok mod, some mod, false⟩)
    ∧ (∀ imported : String,
      Addon.module false imported false none
        = ⟨.error .addonImportError, none, true⟩) :=
  ⟨fun _ _ _ => rfl, fun _ => rfl⟩

/-- Helper: the used-modules cleanup only removes entries from
`sys.modules`, never adds any. -/
theorem cleanup_used_sub (used : List String) (led : List (String × Nat))
    (sysm : List String) :
    ∀ n, n ∈ (cleanup_used used led sysm).2 → n ∈ sysm := by
  induction used generalizing led sysm with
  | nil => intro n hn; simpa [cleanup_used] using hn
  | cons u rest ih =>
    intro n hn
    simp only [cleanup_used] at hn
    split at hn
    · exact (List.mem_filter.mp (ih _ _ n hn)).1
    · exact ih _ _ n hn

/-- **C6**: `ModuleInterface.unload` refuses with `RuntimeError` whenever
more than four references to the code handle are detected (before any
mutation, so the module stays loaded); with four or fewer it reports the
`on_unload` hook exactly when the module defines one, clears both the
interface's and the addon's stored handle, and purges the handle and all
its sub-units from `sys.modules`. -/
theorem c6_theorem :
    (∀ (rc : Nat) (st : InterfaceState) (name : String),
      st.iface_module = some name → 4 < rc →
      ModuleInterface.unload rc st = .error .runtimeError)
    ∧ (∀ (rc : Nat) (st : InterfaceState) (name : String),
      st.iface_module = some name → rc ≤ 4 →
      ∃ done, ModuleInterface.unload rc st = .ok done
        ∧ done.called_on_unload = st.has_on_unload
        ∧ done.state.iface_module = none
        ∧ done.state.addon_module = none
        ∧ ∀ n ∈ done.state.sys_modules, name.isPrefixOf n = false) := by
  constructor
  · intro rc st name h hrc
    simp [ModuleInterface.unload, h, hrc]
  · intro rc st name h hrc
    have hnot : ¬ rc > 4 := by omega
    rcases hcl : cleanup_used st.used_modules st.ledger
        (unload_module name st.sys_modules) with ⟨led, sysm2⟩
    refine ⟨⟨⟨none, none, (if rc = 4 then false else st.parent_attr), sysm2,
        st.has_on_unload, [], led⟩, st.has_on_unload⟩, ?_, rfl, rfl, rfl, ?_⟩
    · simp [ModuleInterface.unload, h, hnot, hcl]
    · intro n hn
      have hmem : n ∈ unload_module name st.sys_modules := by
        refine cleanup_used_sub st.used_modules st.ledger _ n ?_
        rw [hcl]
        exact hn
      have := (List.mem_filter.mp hmem).2
      simpa using this

/-- **C6** witness: `c6_theorem` at the fixture state, refused at five
references and succeeding at four. -/
theorem c6_witness :
    ModuleInterface.unload 5 c6_state = .error .runtimeError
    ∧ ∃ done, ModuleInterface.unload 4 c6_state = .ok done
        ∧ done.called_on_unload = c6_state.has_on_unload
        ∧ done.state.iface_module = none
        ∧ done.state.addon_module = none
        ∧ ∀ n ∈ done.state.sys_modules, "pkg".isPrefixOf n = false :=
  ⟨c6_theorem.1 5 c6_state "pkg" rfl (by decide),
   c6_theorem.2 4 c6_state "pkg" rfl (by decide)⟩

/-- Helper: the per-addon condition of the source agrees with the
spec-side matcher of the amended claim. -/
theorem addon_matches_eq_spec (author name description : Option String)
    (enabled : Option Bool) (ci : Bool) (m : AddonMeta) (se : Bool) :
    addon_matches author name description enabled ci m se
      = spec_matches author name description enabled ci m se := by
  cases ci <;>
    cases author <;> cases name <;> cases description <;> cases enabled <;>
      simp [addon_matches, spec_matches, Bool.or_assoc]

/-- **C9** (amended): `query_addons` yields exactly the discovered addons
matching at least one provided criterion (OR across criteria), where under
`case_insensitivity` the name/description substring checks are case-folded
on both sides but the author check compares the lowercased addon author to
the query string as given; a call with no criteria yields no addons. -/
theorem c9_theorem :
    (∀ (author name description : Option String) (enabled : Option Bool)
        (ci : Bool) (addons : List (AddonMeta × Bool)),
      query_addons author name description enabled ci addons
        = (addons.filter fun p =>
            spec_matches author name description enabled ci p.1 p.2).map
            Prod.fst)
    ∧ (∀ (ci : Bool) (addons : List (AddonMeta × Bool)),
      query_addons none none none none ci addons = []) := by
  constructor
  · intro author name description enabled ci addons
    have h : (fun p : AddonMeta × Bool =>
        addon_matches author name description enabled ci p.1 p.2)
        = (fun p : AddonMeta × Bool =>
        spec_matches author name description enabled ci p.1 p.2) :=
      funext fun p => addon_matches_eq_spec author name description enabled ci
        p.1 p.2
    rw [query_addons, h]
  · intro ci addons
    simp [query_addons, addon_matches]

/-- **C9** counterexample to the claim as stated: with
`case_insensitivity = true` and `author = "A"`, an addon whose authors list
is exactly `["A"]` is *not* yielded, although the case-folded comparison
the claim describes matches; the source lowercases only the addon's author
(`a.lower() == author`). -/
theorem c9_counterexample :
    query_addons (some "A") none none none true [(c9_meta, true)] = []
    ∧ c9_meta.authors = ["A"]
    ∧ (str_lower "A" == str_lower "A") = true := by
  refine ⟨by decide, rfl, by decide⟩

/-- Helper: the string-field type check of `_fields_types` agrees with the
spec-side per-field predicate. -/
theorem str_field_eq (fields : List (String × Json)) (f : String) :
    (match get_field fields f with
     | none => true
     | some v => v.is_str) = spec_str_field_ok fields f := by
  unfold get_field spec_str_field_ok
  cases hl : lookup_field fields f with
  | none => rfl
  | some v => cases v <;> rfl

/-- Helper: the list-field type check of `_fields_types` agrees with the
spec-side per-field predicate. -/
theorem strlist_field_eq (fields : List (String × Json)) (f : String) :
    (match get_field fields f with
     | none => true
     | some (Json.arr xs) => xs.all Json.is_str
     | some _ => false) = spec_strlist_field_ok fields f := by
  unfold get_field spec_strlist_field_ok
  cases hl : lookup_field fields f with
  | none => rfl
  | some v => cases v <;> rfl

/-- Helper: `_required_fields` over the fixed required list, expanded. -/
theorem required_fields_ok_eq (fields : List (String × Json)) :
    required_fields_ok fields
      = (has_field fields "id" && has_field fields "module" &&
         has_field fields "name" && has_field fields "authors") := by
  simp [required_fields_ok, Bool.and_assoc]

/-- Helper: `_fields_types` over the fixed schema table, expanded to the
spec-side per-field predicates. -/
theorem fields_types_ok_eq (fields : List (String × Json)) :
    fields_types_ok fields
      = (spec_str_field_ok fields "id" && spec_str_field_ok fields "module" &&
         spec_str_field_ok fields "name" &&
         spec_str_field_ok fields "description" &&
         spec_str_field_ok fields "version" &&
         spec_strlist_field_ok fields "depends" &&
         spec_strlist_field_ok fields "authors") := by
  simp [fields_types_ok, string_fields, list_fields, str_field_eq,
    strlist_field_eq, Bool.and_assoc]

/-- Helper: the spec-side acceptance condition in terms of the source-side
validators. -/
theorem spec_meta_accepts_eq (e : Bool) (n : String) (j : Json) :
    spec_meta_accepts e n j
      = (e && (n == "addon.json") &&
         match j with
         | .obj fields => required_fields_ok fields && fields_types_ok fields
         | _ => false) := by
  unfold spec_meta_accepts
  cases j <;>
    simp [required_fields_ok_eq, fields_types_ok_eq, Bool.and_assoc]

/-- **C8** (amended): the metadata read pipeline succeeds exactly when the
file is present under the exact expected filename, contains a JSON object,
has the required fields `{id, module, name, authors}` present (a `null`
value counts as present), and every present non-`null` schema field is
well-typed — `null`-valued fields are skipped by the type check; every
failure surfaces as `AddonMetaInvalid`. -/
theorem c8_theorem :
    (∀ (e : Bool) (n : String) (j : Json),
      read_ok (meta_read_file e n j) = spec_meta_accepts e n j)
    ∧ (∀ (e : Bool) (n : String) (j : Json) (err : PyExc),
      meta_read_file e n j = .error err → err = .addonMetaInvalid) := by
  constructor
  · intro e n j
    rw [spec_meta_accepts_eq]
    cases e
    · simp [meta_read_file, read_ok]
    · by_cases hn : n = "addon.json"
      · subst hn
        have h1 : ∀ jj, meta_read_file true "addon.json" jj = meta_read jj := by
          intro jj
          simp [meta_read_file]
        rw [h1]
        cases j <;> try simp [meta_read, read_ok]
        next fields =>
          by_cases hreq : required_fields_ok fields <;>
            by_cases hty : fields_types_ok fields <;>
              simp [meta_read, validate_content, hreq, hty, read_ok]
      · have hn' : (n == "addon.json") = false := by
          simp [hn]
        simp [meta_read_file, hn, read_ok, hn']
  · intro e n j err h
    cases e
    · simp [meta_read_file] at h
      exact h.symm
    · by_cases hn : n = "addon.json"
      · subst hn
        simp only [meta_read_file, Bool.not_true, Bool.false_eq_true,
          if_false, ne_eq, not_true_eq_false, if_true] at h
        cases j <;> simp [meta_read] at h <;> try exact h.symm
        next fields =>
          by_cases hreq : required_fields_ok fields <;>
            by_cases hty : fields_types_ok fields <;>
              simp [validate_content, hreq, hty] at h <;>
                try exact h.symm
      · simp [meta_read_file, hn] at h
        exact h.symm

/-- **C8** counterexample to the claim as stated: a metadata file whose
required field `id` is JSON `null` — a string field holding a non-string —
is *accepted* by `read()` (the type check skips `None` values), where the
claim requires `MetaInvalid`. -/
theorem c8_counterexample :
    lookup_field c8_fields "id" = some Json.null
    ∧ Json.is_str Json.null = false
    ∧ meta_read_file true "addon.json" (Json.obj c8_fields)
        = .ok (c8_fields ++ DEFAULTS) := by
  refine ⟨rfl, rfl, ?_⟩
  rfl

/-- **C8** witness: `c8_theorem` evaluated at a concrete rejected file (a
JSON array instead of an object) and at the failure branch. -/
theorem c8_witness :
    read_ok (meta_read_file true "addon.json" (Json.arr []))
        = spec_meta_accepts true "addon.json" (Json.arr [])
    ∧ PyExc.addonMetaInvalid = PyExc.addonMetaInvalid :=
  ⟨c8_theorem.1 true "addon.json" (Json.arr []),
   c8_theorem.2 true "addon.json" (Json.arr []) PyExc.addonMetaInvalid rfl⟩

/-! Helper lemmas about dict lookup under appends, for the round-trip
claim. -/

theorem lookup_append_some (a b : List (String × Json)) (f : String)
    (v : Json) (h : lookup_field a f = some v) :
    lookup_field (a ++ b) f = some v := by
  induction a with
  | nil => simp [lookup_field] at h
  | cons hd tl ih =>
    obtain ⟨k, w⟩ := hd
    by_cases hk : k = f
    · simp_all [lookup_field]
    · simp only [lookup_field, if_neg hk] at h
      simpa [lookup_field, hk] using ih h

theorem lookup_append_none (a b : List (String × Json)) (f : String)
    (h : lookup_field a f = none) :
    lookup_field (a ++ b) f = lookup_field b f := by
  induction a with
  | nil => simp [lookup_field]
  | cons hd tl ih =>
    obtain ⟨k, w⟩ := hd
    by_cases hk : k = f
    · simp [lookup_field, hk] at h
    · simp only [lookup_field, if_neg hk] at h
      simpa [lookup_field, hk] using ih h

theorem has_field_append_left (a b : List (String × Json)) (f : String)
    (h : has_field a f = true) : has_field (a ++ b) f = true := by
  unfold has_field at h ⊢
  cases hl : lookup_field a f with
  | none => rw [hl] at h; simp at h
  | some v => rw [lookup_append_some a b f v hl]; rfl

theorem has_field_false (a : List (String × Json)) (f : String)
    (h : has_field a f = false) : lookup_field a f = none := by
  unfold has_field at h
  cases hl : lookup_field a f with
  | none => rfl
  | some v => rw [hl] at h; simp at h

theorem lookup_mem (l : List (String × Json)) (f : String) (v : Json)
    (h : lookup_field l f = some v) : (f, v) ∈ l := by
  induction l with
  | nil => simp [lookup_field] at h
  | cons hd tl ih =>
    obtain ⟨k, w⟩ := hd
    by_cases hk : k = f
    · subst hk
      simp [lookup_field] at h
      subst h
      exact List.mem_cons_self _ _
    · simp only [lookup_field, if_neg hk] at h
      exact List.mem_cons_of_mem _ (ih h)

/-! Helper lemmas about the defaults-installing fold. -/

theorem foldl_defaults_shape (ds : List (String × Json))
    (acc : List (String × Json) × Bool) :
    ∃ t, (List.foldl defaults_step acc ds).1 = acc.1 ++ t
      ∧ ∀ kv ∈ t, kv ∈ ds := by
  induction ds generalizing acc with
  | nil => exact ⟨[], by simp, by simp⟩
  | cons d ds ih =>
    rw [List.foldl_cons]
    by_cases hd : has_field acc.1 d.1
    · rw [show defaults_step acc d = acc from by simp [defaults_step, hd]]
      obtain ⟨t, ht, hmem⟩ := ih acc
      exact ⟨t, ht, fun kv hkv => List.mem_cons_of_mem _ (hmem kv hkv)⟩
    · rw [show defaults_step acc d = (acc.1 ++ [d], true) from by
        simp [defaults_step, hd]]
      obtain ⟨t, ht, hmem⟩ := ih (acc.1 ++ [d], true)
      refine ⟨d :: t, ?_, ?_⟩
      · rw [ht]
        simp
      · intro kv hkv
        rcases List.mem_cons.mp hkv with h | h
        · subst h
          exact List.mem_cons_self _ _
        · exact List.mem_cons_of_mem _ (hmem kv h)

theorem foldl_defaults_keeps (ds : List (String × Json))
    (acc : List (String × Json) × Bool) (k : String)
    (h : has_field acc.1 k = true) :
    has_field (List.foldl defaults_step acc ds).1 k = true := by
  obtain ⟨t, ht, _⟩ := foldl_defaults_shape ds acc
  rw [ht]
  exact has_field_append_left _ _ _ h

theorem foldl_defaults_presence (ds : List (String × Json))
    (acc : List (String × Json) × Bool) (k : String)
    (h : k ∈ ds.map Prod.fst) :
    has_field (List.foldl defaults_step acc ds).1 k = true := by
  induction ds generalizing acc with
  | nil => simp at h
  | cons d ds ih =>
    rw [List.foldl_cons]
    rw [List.map_cons, List.mem_cons] at h
    rcases h with hk | hk
    · subst hk
      apply foldl_defaults_keeps
      by_cases hd : has_field acc.1 d.1
      · rw [show defaults_step acc d = acc from by simp [defaults_step, hd]]
        exact hd
      · simp only [defaults_step, if_neg hd]
        unfold has_field
        rw [lookup_append_none _ _ _ (has_field_false _ _ (by simpa using hd))]
        simp [lookup_field]
    · exact ih _ hk

theorem foldl_defaults_noop (ds : List (String × Json))
    (acc : List (String × Json) × Bool)
    (h : ∀ k ∈ ds.map Prod.fst, has_field acc.1 k = true) :
    List.foldl defaults_step acc ds = acc := by
  induction ds generalizing acc with
  | nil => rfl
  | cons d ds ih =>
    rw [List.foldl_cons]
    have hd : has_field acc.1 d.1 = true := h d.1 (by simp)
    rw [show defaults_step acc d = acc from by simp [defaults_step, hd]]
    exact ih acc fun k hk => h k (by
      rw [List.map_cons]
      exact List.mem_cons_of_mem _ hk)

/-! Helper lemmas: type checks survive appending entries drawn from
`DEFAULTS`. -/

theorem spec_str_ok_append (fields t : List (String × Json)) (f : String)
    (ht : ∀ kv ∈ t, kv ∈ DEFAULTS)
    (hf : spec_str_field_ok fields f = true)
    (hne : f ≠ "depends") :
    spec_str_field_ok (fields ++ t) f = true := by
  unfold spec_str_field_ok at hf ⊢
  cases hl : lookup_field fields f with
  | some v =>
    rw [lookup_append_some fields t f v hl]
    rw [hl] at hf
    exact hf
  | none =>
    rw [lookup_append_none fields t f hl]
    cases hl2 : lookup_field t f with
    | none => rfl
    | some v =>
      have hmem := ht _ (lookup_mem t f v hl2)
      simp only [DEFAULTS, List.mem_cons, List.mem_singleton,
        Prod.mk.injEq, List.not_mem_nil, or_false] at hmem
      rcases hmem with ⟨hf1, hv⟩ | ⟨hf1, hv⟩ | ⟨hf1, hv⟩
      · subst hv; rfl
      · subst hv; rfl
      · exact absurd hf1 hne

theorem spec_strlist_ok_append (fields t : List (String × Json)) (f : String)
    (ht : ∀ kv ∈ t, kv ∈ DEFAULTS)
    (hf : spec_strlist_field_ok fields f = true)
    (hne1 : f ≠ "version") (hne2 : f ≠ "description") :
    spec_strlist_field_ok (fields ++ t) f = true := by
  unfold spec_strlist_field_ok at hf ⊢
  cases hl : lookup_field fields f with
  | some v =>
    rw [lookup_append_some fields t f v hl]
    rw [hl] at hf
    exact hf
  | none =>
    rw [lookup_append_none fields t f hl]
    cases hl2 : lookup_field t f with
    | none => rfl
    | some v =>
      have hmem := ht _ (lookup_mem t f v hl2)
      simp only [DEFAULTS, List.mem_cons, List.mem_singleton,
        Prod.mk.injEq, List.not_mem_nil, or_false] at hmem
      rcases hmem with ⟨hf1, hv⟩ | ⟨hf1, hv⟩ | ⟨hf1, hv⟩
      · exact absurd hf1 hne1
      · exact absurd hf1 hne2
      · subst hv; rfl

/-- **C10**: for every valid metadata file, `read()` then `save()` then
`read()` yields a data tree identical to the one obtained from the first
`read()` (the second read validates the saved tree, and installing defaults
is a no-op because the first read already installed them all). -/
theorem c10_theorem (j : Json) (d : List (String × Json))
    (h : meta_read j = .ok d) :
    meta_read (meta_save d) = .ok d := by
  cases j with
  | null => simp [meta_read] at h
  | bool b => simp [meta_read] at h
  | num n => simp [meta_read] at h
  | str s => simp [meta_read] at h
  | arr xs => simp [meta_read] at h
  | obj fields =>
    simp only [meta_read] at h
    cases hv : validate_content fields with
    | error e => rw [hv] at h; simp at h
    | ok u =>
      rw [hv] at h
      simp only [Except.ok.injEq] at h
      unfold validate_content at hv
      by_cases hreq : required_fields_ok fields = true
      case neg => simp [hreq] at hv
      by_cases hty : fields_types_ok fields = true
      case neg => simp [hreq, hty] at hv
      obtain ⟨t, ht, hmem⟩ := foldl_defaults_shape DEFAULTS (fields, false)
      have hd : d = fields ++ t := by
        rw [← h]
        exact ht
      rw [required_fields_ok_eq] at hreq
      rw [fields_types_ok_eq] at hty
      simp only [Bool.and_eq_true] at hreq hty
      obtain ⟨⟨⟨r1, r2⟩, r3⟩, r4⟩ := hreq
      obtain ⟨⟨⟨⟨⟨⟨t1, t2⟩, t3⟩, t4⟩, t5⟩, t6⟩, t7⟩ := hty
      have hreq' : required_fields_ok d = true := by
        rw [required_fields_ok_eq, hd]
        simp [has_field_append_left _ _ _ r1, has_field_append_left _ _ _ r2,
          has_field_append_left _ _ _ r3, has_field_append_left _ _ _ r4]
      have hty' : fields_types_ok d = true := by
        rw [fields_types_ok_eq, hd]
        simp [spec_str_ok_append _ _ _ hmem t1 (by decide),
          spec_str_ok_append _ _ _ hmem t2 (by decide),
          spec_str_ok_append _ _ _ hmem t3 (by decide),
          spec_str_ok_append _ _ _ hmem t4 (by decide),
          spec_str_ok_append _ _ _ hmem t5 (by decide),
          spec_strlist_ok_append _ _ _ hmem t6 (by decide) (by decide),
          spec_strlist_ok_append _ _ _ hmem t7 (by decide) (by decide)]
      have hnoop : install_defaults d = (d, false) := by
        unfold install_defaults
        refine foldl_defaults_noop DEFAULTS (d, false) ?_
        intro k hk
        have := foldl_defaults_presence DEFAULTS (fields, false) k hk
        rw [show (List.foldl defaults_step (fields, false) DEFAULTS).1 = d
          from h] at this
        exact this
      simp [meta_read, meta_save, validate_content, hreq', hty', hnoop]

/-- **C10** witness: `c10_theorem` applied to a concrete minimal valid
metadata file. -/
theorem c10_witness :
    meta_read (Json.obj c10_fields) = .ok (c10_fields ++ DEFAULTS)
    ∧ meta_read (meta_save (c10_fields ++ DEFAULTS))
        = .ok (c10_fields ++ DEFAULTS) :=
  ⟨rfl, c10_theorem (Json.obj c10_fields) (c10_fields ++ DEFAULTS) rfl⟩

end AddonSys
